import Mathlib

/-!
# Local source reader (`pkg/sourcereader/local.go`)

A shallow embedding of `LocalSourceReader.GetModuleInfo` and
`LocalSourceReader.GetModule`.

The two methods are compositions of four collaborators that live outside the
file: the path classifier `IsLocalPath`, the metadata factory
`resreader.Factory` (with the reader's `GetInfo`), `os.Stat` with
`os.IsNotExist`, and the copy utility `copyFromPath`.  The collaborators are
parameters of the embedding (`Env`); the filesystem is an explicit state that
is threaded through the calls, and every call of a collaborator that can touch
the filesystem is recorded, in order, in the list of calls of the outcome.
-/

set_option autoImplicit false

namespace sourcereader

/-! ## Go values used by the file -/

/-- Go `error` values that are not nil.  `errorString s` is the value that
`fmt.Errorf` builds when its format has no `%w` verb (it wraps nothing and its
text is `s`); `foreign e` is any other error value, which this file can only
pass around. -/
inductive GoError (E : Type) where
  | errorString (s : String) : GoError E
  | foreign (e : E) : GoError E
  deriving DecidableEq, Repr

/-- The Go type `error`: nil (`none`) or an error value. -/
abbrev error (E : Type) : Type := Option (GoError E)

/-- The method `Error()` of an error value; `text` gives the text of the
foreign ones. -/
def GoError.Error {E : Type} (text : E → String) : GoError E → String
  | .errorString s => s
  | .foreign e => text e

/-- Expansion of a format, character by character.  Only the verb `%s` is
interpreted, the only one in this file: it takes the next operand, and prints
`%!s(MISSING)` when there is none, as Go does.  The other verbs, `%%` and the
report of operands left over are outside this model: the two formats of the
file have one `%s` each and get one operand each. -/
def fmt.expand : List Char → List String → List Char
  | [], _ => []
  | [c], _ => [c]
  | c :: d :: rest, args =>
    if c = '%' ∧ d = 's' then
      match args with
      | a :: as => a.data ++ fmt.expand rest as
      | [] => "%!s(MISSING)".data ++ fmt.expand rest []
    else c :: fmt.expand (d :: rest) args

/-- Go `fmt.Sprintf` on string operands. -/
def fmt.Sprintf (format : String) (args : List String) : String :=
  String.mk (fmt.expand format.data args)

/-- Go `fmt.Errorf` on a format without `%w`. -/
def fmt.Errorf {E : Type} (format : String) (args : List String) : GoError E :=
  GoError.errorString (fmt.Sprintf format args)

/-! ## The collaborators and the instrumented filesystem -/

/-- A call of a collaborator that may touch the filesystem. -/
inductive Call where
  | Factory (kind : String)
  | GetInfo (modPath : String)
  | Stat (name : String)
  | copyFromPath (src dst : String)
  deriving DecidableEq, Repr

/-- What running a piece of code gives: the returned value, the filesystem
afterwards and the collaborator calls it made, in order. -/
structure Outcome (α FS : Type) where
  val : α
  fs : FS
  calls : List Call
  deriving DecidableEq, Repr

/-- A metadata reader, as returned by `resreader.Factory`: its `GetInfo` may
read (and, for what this file knows, write) the filesystem. -/
structure ModReader (FS MI E : Type) where
  GetInfo : String → FS → (MI × error E) × FS

/-- The collaborators of `local.go`, none of which is defined in the file.

* `FS` filesystem states, `MI` the struct `resreader.ModuleInfo`, `FI` the
  `os.FileInfo` values, `E` the error values of the collaborators, `Ω` whatever
  the copy utility depends on besides its arguments and the filesystem
  (directory iteration order, clock, umask).
* `Stat` is a query of the filesystem state: it does not change it. -/
structure Env (FS MI FI E Ω : Type) where
  IsLocalPath : String → Bool
  zeroModuleInfo : MI
  Factory : String → ModReader FS MI E
  Stat : String → FS → FI × error E
  IsNotExist : E → Bool
  ErrorText : E → String
  copyFromPath : Ω → String → String → FS → error E × FS

variable {FS MI FI E Ω : Type}

/-- Call of `resreader.Factory(kind)`. -/
def resreader.Factory (env : Env FS MI FI E Ω) (kind : String) (fs : FS) :
    Outcome (ModReader FS MI E) FS :=
  ⟨env.Factory kind, fs, [Call.Factory kind]⟩

/-- Call of `reader.GetInfo(modPath)`. -/
def ModReader.call (reader : ModReader FS MI E) (modPath : String) (fs : FS) :
    Outcome (MI × error E) FS :=
  ⟨(reader.GetInfo modPath fs).1, (reader.GetInfo modPath fs).2, [Call.GetInfo modPath]⟩

/-- Call of `os.Stat(name)`. -/
def os.Stat (env : Env FS MI FI E Ω) (name : String) (fs : FS) :
    Outcome (FI × error E) FS :=
  ⟨env.Stat name fs, fs, [Call.Stat name]⟩

/-- Go `os.IsNotExist(err)`: false on nil and on an error built by
`fmt.Errorf` without `%w`, decided by the environment on the other ones. -/
def os.IsNotExist (env : Env FS MI FI E Ω) : error E → Bool
  | none => false
  | some (.errorString _) => false
  | some (.foreign e) => env.IsNotExist e

/-- Call of `copyFromPath(src, dst)`. -/
def copyFromPath (env : Env FS MI FI E Ω) (o : Ω) (src dst : String) (fs : FS) :
    Outcome (error E) FS :=
  ⟨(env.copyFromPath o src dst fs).1, (env.copyFromPath o src dst fs).2,
    [Call.copyFromPath src dst]⟩

/-! ## The two methods of `LocalSourceReader` -/

/-- The method `func (r LocalSourceReader) GetModuleInfo(modPath string, kind
string) (resreader.ModuleInfo, error)`: the receiver is an empty struct and is
left out. -/
def LocalSourceReader.GetModuleInfo (env : Env FS MI FI E Ω) (modPath kind : String)
    (fs : FS) : Outcome (MI × error E) FS :=
  if !env.IsLocalPath modPath then
    ⟨(env.zeroModuleInfo, some (fmt.Errorf "Source is not valid: %s" [modPath])), fs, []⟩
  else
    let reader := resreader.Factory env kind fs
    let info := reader.val.call modPath reader.fs
    ⟨info.val, info.fs, reader.calls ++ info.calls⟩

/-- The method `func (r LocalSourceReader) GetModule(modPath string, copyPath
string) error`.  The file information that `os.Stat` returns is dropped, as in
the source, and only `os.IsNotExist` looks at its error. -/
def LocalSourceReader.GetModule (env : Env FS MI FI E Ω) (o : Ω) (modPath copyPath : String)
    (fs : FS) : Outcome (error E) FS :=
  if !env.IsLocalPath modPath then
    ⟨some (fmt.Errorf "Source is not valid: %s" [modPath]), fs, []⟩
  else
    let st := os.Stat env modPath fs
    if os.IsNotExist env st.val.2 then
      ⟨some (fmt.Errorf "Local module doesn't exist at %s" [modPath]), st.fs, st.calls⟩
    else
      let cp := copyFromPath env o modPath copyPath st.fs
      ⟨cp.val, cp.fs, st.calls ++ cp.calls⟩

/-! ## Properties of the collaborators that some statements assume -/

/-- The copy utility copies the whole tree of its source into its destination
whenever it returns no error: every file of `src`, read through `files` as
(directory, relative path) to content, is afterwards a file of `dst` at the
same relative path with the same content. -/
def CopiesTree {C : Type} (env : Env FS MI FI E Ω) (files : FS → String → String → Option C) :
    Prop :=
  ∀ (o : Ω) (src dst : String) (fs : FS), (env.copyFromPath o src dst fs).1 = none →
    ∀ (rel : String) (c : C), files fs src rel = some c →
      files (env.copyFromPath o src dst fs).2 dst rel = some c

/-- The copy utility is deterministic: what it returns and the filesystem it
leaves depend on its arguments and on the filesystem it starts from only. -/
def DeterministicCopy (env : Env FS MI FI E Ω) : Prop :=
  ∀ (o₁ o₂ : Ω) (src dst : String) (fs : FS),
    env.copyFromPath o₁ src dst fs = env.copyFromPath o₂ src dst fs

/-! ## A small concrete world, to run the embedding on -/

/-- Error numbers of the sample world. -/
inductive Errno where
  | ENOENT
  | EACCES
  | EINVAL
  deriving DecidableEq, Repr

/-- Sample filesystem: its files, each as (directory, path relative to the
directory, content). -/
abbrev SampleFS : Type := List (String × String × String)

/-- Content of the file of `dir` at `rel`, if there is one. -/
def sampleFiles (fs : SampleFS) (dir rel : String) : Option String :=
  (fs.find? (fun e => decide (e.1 = dir ∧ e.2.1 = rel))).map (fun e => e.2.2)

/-- Sample classifier: a path is local when it starts with `/`, `./` or `../`. -/
def sampleIsLocalPath (p : String) : Bool :=
  decide (p.data.take 1 = ['/']) || decide (p.data.take 2 = ['.', '/'])
    || decide (p.data.take 3 = ['.', '.', '/'])

/-- Sample `os.Stat`: `/locked` cannot be inspected, a directory exists when it
has a file; the file information is the number of files. -/
def sampleStat (name : String) (fs : SampleFS) : Nat × error Errno :=
  if name = "/locked" then (0, some (.foreign Errno.EACCES))
  else if fs.any (fun e => decide (e.1 = name)) then
    ((fs.filter (fun e => decide (e.1 = name))).length, none)
  else (0, some (.foreign Errno.ENOENT))

/-- Sample reader factory: the `terraform` reader returns the content of
`variables.tf`, every other kind has a reader that fails. -/
def sampleFactory (kind : String) : ModReader SampleFS String Errno :=
  if kind = "terraform" then
    ⟨fun modPath fs =>
      match sampleFiles fs modPath "variables.tf" with
      | some c => ((c, none), fs)
      | none => (("", some (.foreign Errno.ENOENT)), fs)⟩
  else
    ⟨fun _ fs => (("", some (.foreign Errno.EINVAL)), fs)⟩

/-- The files of `src` as files of `dst`. -/
def sampleCopies (src dst : String) (fs : SampleFS) : SampleFS :=
  (fs.filter (fun e => decide (e.1 = src))).map (fun e => (dst, e.2.1, e.2.2))

/-- Sample copy utility: refuses to write under `/readonly`, otherwise puts the
files of `src` under `dst`, in front of what is there. -/
def sampleCopy (_o : Nat) (src dst : String) (fs : SampleFS) : error Errno × SampleFS :=
  if dst = "/readonly" then (some (.foreign Errno.EACCES), fs)
  else (none, sampleCopies src dst fs ++ fs)

/-- The sample environment. -/
def sampleEnv : Env SampleFS String Nat Errno Nat where
  IsLocalPath := sampleIsLocalPath
  zeroModuleInfo := ""
  Factory := sampleFactory
  Stat := sampleStat
  IsNotExist := fun e => decide (e = Errno.ENOENT)
  ErrorText := fun e =>
    match e with
    | .ENOENT => "no such file or directory"
    | .EACCES => "permission denied"
    | .EINVAL => "invalid argument"
  copyFromPath := sampleCopy

/-- A sample filesystem state: one module with two files. -/
def sampleDisk : SampleFS :=
  [("/mods/vpc", "main.tf", "resource vpc"), ("/mods/vpc", "variables.tf", "variable name")]

/-- A copy utility that is not deterministic: it stamps the destination with
something that is not in its arguments or in the filesystem. -/
def stampCopy (o : Nat) (src dst : String) (fs : SampleFS) : error Errno × SampleFS :=
  (none, (dst, ".stamp", if o = 0 then "even" else "odd") :: (sampleCopies src dst fs ++ fs))

/-- The sample environment with the stamping copy utility. -/
def stampEnv : Env SampleFS String Nat Errno Nat :=
  { sampleEnv with copyFromPath := stampCopy }

/-! ## Formatting lemmas -/

theorem Sprintf_invalid (modPath : String) :
    fmt.Sprintf "Source is not valid: %s" [modPath] = "Source is not valid: " ++ modPath := by
  apply String.ext
  simp [fmt.Sprintf, fmt.expand, String.data_append]

theorem Sprintf_not_found (modPath : String) :
    fmt.Sprintf "Local module doesn't exist at %s" [modPath]
      = "Local module doesn't exist at " ++ modPath := by
  apply String.ext
  simp [fmt.Sprintf, fmt.expand, String.data_append]

/-! ## The sample copy utility copies the tree -/

theorem sampleCopies_find (src dst rel c : String) (fs : SampleFS)
    (h : sampleFiles fs src rel = some c) :
    (sampleCopies src dst fs).find? (fun e => decide (e.1 = dst ∧ e.2.1 = rel))
      = some (dst, rel, c) := by
  induction fs with
  | nil => simp [sampleFiles] at h
  | cons e t ih =>
    obtain ⟨dir, name, content⟩ := e
    by_cases hd : dir = src
    · by_cases hr : name = rel
      · subst hd hr
        simp [sampleFiles] at h
        simp [sampleCopies, h]
      · have ht : sampleFiles t src rel = some c := by
          simpa [sampleFiles, List.find?_cons, hd, hr] using h
        have := ih ht
        simpa [sampleCopies, List.filter_cons, hd, List.find?_cons, hr] using this
    · have ht : sampleFiles t src rel = some c := by
        simpa [sampleFiles, List.find?_cons, hd] using h
      have := ih ht
      simpa [sampleCopies, List.filter_cons, hd] using this

theorem sampleEnv_copiesTree : CopiesTree sampleEnv sampleFiles := by
  intro o src dst fs hok rel c hf
  by_cases hro : dst = "/readonly"
  · simp [sampleEnv, sampleCopy, hro] at hok
  · have hfind := sampleCopies_find src dst rel c fs hf
    simp only [sampleEnv, sampleCopy, if_neg hro, sampleFiles, List.find?_append, hfind]
    rfl

theorem sampleEnv_deterministicCopy : DeterministicCopy sampleEnv :=
  fun _ _ _ _ _ => rfl

/-! ## Failure on a source that is not local -/

/-- C1: when `IsLocalPath(modPath)` is false, `GetModuleInfo(modPath, kind)`
returns the zero-value `ModuleInfo` and an error whose text is exactly
`"Source is not valid: "` followed by `modPath`; it makes no call of
`resreader.Factory` or of `GetInfo` (no collaborator is called at all) and the
filesystem is the one it started from. -/
theorem GetModuleInfo_invalid_source (env : Env FS MI FI E Ω) (modPath kind : String) (fs : FS)
    (h : env.IsLocalPath modPath = false) :
    ∃ e : GoError E,
      LocalSourceReader.GetModuleInfo env modPath kind fs = ⟨(env.zeroModuleInfo, some e), fs, []⟩
        ∧ e.Error env.ErrorText = "Source is not valid: " ++ modPath := by
  refine ⟨fmt.Errorf "Source is not valid: %s" [modPath], ?_, ?_⟩
  · simp [LocalSourceReader.GetModuleInfo, h]
  · simp [fmt.Errorf, GoError.Error, Sprintf_invalid]

theorem GetModuleInfo_invalid_source_witness :
    sampleEnv.IsLocalPath "gcs://bucket/mod" = false ∧
    ∃ e : GoError Errno,
      LocalSourceReader.GetModuleInfo sampleEnv "gcs://bucket/mod" "terraform" sampleDisk
          = ⟨(sampleEnv.zeroModuleInfo, some e), sampleDisk, []⟩
        ∧ e.Error sampleEnv.ErrorText = "Source is not valid: " ++ "gcs://bucket/mod" :=
  ⟨by decide,
    GetModuleInfo_invalid_source sampleEnv "gcs://bucket/mod" "terraform" sampleDisk (by decide)⟩

/-- C2: when `IsLocalPath(modPath)` is false, `GetModule(modPath, copyPath)`
returns an error whose text is exactly `"Source is not valid: "` followed by
`modPath`, before any I/O: neither `os.Stat` nor `copyFromPath` is called and
the filesystem is the one it started from.  Nothing is assumed of `os.Stat`,
so this holds whether or not `modPath` exists on disk. -/
theorem GetModule_invalid_source (env : Env FS MI FI E Ω) (o : Ω) (modPath copyPath : String)
    (fs : FS) (h : env.IsLocalPath modPath = false) :
    ∃ e : GoError E,
      LocalSourceReader.GetModule env o modPath copyPath fs = ⟨some e, fs, []⟩
        ∧ e.Error env.ErrorText = "Source is not valid: " ++ modPath := by
  refine ⟨fmt.Errorf "Source is not valid: %s" [modPath], ?_, ?_⟩
  · simp [LocalSourceReader.GetModule, h]
  · simp [fmt.Errorf, GoError.Error, Sprintf_invalid]

theorem GetModule_invalid_source_witness :
    sampleEnv.IsLocalPath "mods/vpc" = false ∧
    ∃ e : GoError Errno,
      LocalSourceReader.GetModule sampleEnv 0 "mods/vpc" "/deploy"
          [("mods/vpc", "main.tf", "resource vpc")]
          = ⟨some e, [("mods/vpc", "main.tf", "resource vpc")], []⟩
        ∧ e.Error sampleEnv.ErrorText = "Source is not valid: " ++ "mods/vpc" :=
  ⟨by decide,
    GetModule_invalid_source sampleEnv 0 "mods/vpc" "/deploy"
      [("mods/vpc", "main.tf", "resource vpc")] (by decide)⟩

/-! ## A local source that does not exist -/

/-- C3: when `IsLocalPath(modPath)` is true and `os.IsNotExist` holds of the
error of `os.Stat(modPath)`, `GetModule(modPath, copyPath)` returns an error
whose text is exactly `"Local module doesn't exist at "` followed by
`modPath`; its only call is `os.Stat(modPath)`, so `copyFromPath` is not
called, and the filesystem, the destination included, is left as it was. -/
theorem GetModule_source_not_found (env : Env FS MI FI E Ω) (o : Ω) (modPath copyPath : String)
    (fs : FS) (hl : env.IsLocalPath modPath = true)
    (hn : os.IsNotExist env (env.Stat modPath fs).2 = true) :
    (∃ e : GoError E,
      LocalSourceReader.GetModule env o modPath copyPath fs = ⟨some e, fs, [Call.Stat modPath]⟩
        ∧ e.Error env.ErrorText = "Local module doesn't exist at " ++ modPath)
    ∧ (∀ src dst : String,
        Call.copyFromPath src dst ∉ (LocalSourceReader.GetModule env o modPath copyPath fs).calls)
    ∧ (LocalSourceReader.GetModule env o modPath copyPath fs).fs = fs := by
  have hrun : LocalSourceReader.GetModule env o modPath copyPath fs
      = ⟨some (fmt.Errorf "Local module doesn't exist at %s" [modPath]), fs, [Call.Stat modPath]⟩ := by
    simp [LocalSourceReader.GetModule, hl, os.Stat, hn]
  refine ⟨⟨_, hrun, ?_⟩, ?_, ?_⟩
  · simp [fmt.Errorf, GoError.Error, Sprintf_not_found]
  · intro src dst
    simp [hrun]
  · simp [hrun]

theorem GetModule_source_not_found_witness :
    sampleEnv.IsLocalPath "/tmp/nonexistent" = true ∧
    os.IsNotExist sampleEnv (sampleEnv.Stat "/tmp/nonexistent" sampleDisk).2 = true ∧
    ((∃ e : GoError Errno,
      LocalSourceReader.GetModule sampleEnv 0 "/tmp/nonexistent" "/deploy" sampleDisk
          = ⟨some e, sampleDisk, [Call.Stat "/tmp/nonexistent"]⟩
        ∧ e.Error sampleEnv.ErrorText = "Local module doesn't exist at " ++ "/tmp/nonexistent")
    ∧ (∀ src dst : String,
        Call.copyFromPath src dst ∉
          (LocalSourceReader.GetModule sampleEnv 0 "/tmp/nonexistent" "/deploy" sampleDisk).calls)
    ∧ (LocalSourceReader.GetModule sampleEnv 0 "/tmp/nonexistent" "/deploy" sampleDisk).fs
        = sampleDisk) :=
  ⟨by decide, by decide,
    GetModule_source_not_found sampleEnv 0 "/tmp/nonexistent" "/deploy" sampleDisk
      (by decide) (by decide)⟩

/-! ## Delegation -/

/-- C4: when `IsLocalPath(modPath)` is true, `GetModuleInfo(modPath, kind)`
returns exactly the pair that `resreader.Factory(kind).GetInfo(modPath)`
returns, metadata and error alike, unmodified and unwrapped; it calls the
factory, then `GetInfo`, and nothing else, and the filesystem afterwards is the
one `GetInfo` leaves. -/
theorem GetModuleInfo_pass_through (env : Env FS MI FI E Ω) (modPath kind : String) (fs : FS)
    (hl : env.IsLocalPath modPath = true) :
    LocalSourceReader.GetModuleInfo env modPath kind fs
      = ⟨((env.Factory kind).GetInfo modPath fs).1, ((env.Factory kind).GetInfo modPath fs).2,
          [Call.Factory kind, Call.GetInfo modPath]⟩ := by
  simp [LocalSourceReader.GetModuleInfo, hl, resreader.Factory, ModReader.call]

theorem GetModuleInfo_pass_through_witness :
    sampleEnv.IsLocalPath "/mods/vpc" = true ∧
    LocalSourceReader.GetModuleInfo sampleEnv "/mods/vpc" "packer" sampleDisk
      = ⟨((sampleEnv.Factory "packer").GetInfo "/mods/vpc" sampleDisk).1,
          ((sampleEnv.Factory "packer").GetInfo "/mods/vpc" sampleDisk).2,
          [Call.Factory "packer", Call.GetInfo "/mods/vpc"]⟩ :=
  ⟨by decide, GetModuleInfo_pass_through sampleEnv "/mods/vpc" "packer" sampleDisk (by decide)⟩

/-- C5: when `IsLocalPath(modPath)` is true and `os.Stat(modPath)` succeeds,
`GetModule(modPath, copyPath)` calls `copyFromPath` exactly once, with
`modPath` as source and `copyPath` as destination, as its last call, and
returns exactly what that call returns (nil or the error, unchanged); the
filesystem afterwards is the one the copy leaves, so nothing is retried,
cleaned up or rolled back. -/
theorem GetModule_copies (env : Env FS MI FI E Ω) (o : Ω) (modPath copyPath : String) (fs : FS)
    (hl : env.IsLocalPath modPath = true) (hs : (env.Stat modPath fs).2 = none) :
    LocalSourceReader.GetModule env o modPath copyPath fs
      = ⟨(env.copyFromPath o modPath copyPath fs).1, (env.copyFromPath o modPath copyPath fs).2,
          [Call.Stat modPath, Call.copyFromPath modPath copyPath]⟩ := by
  simp [LocalSourceReader.GetModule, hl, os.Stat, hs, os.IsNotExist, copyFromPath]

theorem GetModule_copies_witness :
    sampleEnv.IsLocalPath "/mods/vpc" = true ∧
    (sampleEnv.Stat "/mods/vpc" sampleDisk).2 = none ∧
    LocalSourceReader.GetModule sampleEnv 7 "/mods/vpc" "/readonly" sampleDisk
      = ⟨(sampleEnv.copyFromPath 7 "/mods/vpc" "/readonly" sampleDisk).1,
          (sampleEnv.copyFromPath 7 "/mods/vpc" "/readonly" sampleDisk).2,
          [Call.Stat "/mods/vpc", Call.copyFromPath "/mods/vpc" "/readonly"]⟩ :=
  ⟨by decide, by decide,
    GetModule_copies sampleEnv 7 "/mods/vpc" "/readonly" sampleDisk (by decide) (by decide)⟩

/-! ## What a successful copy leaves -/

/-- C6: with a copy utility that copies the whole tree of its source into its
destination whenever it returns no error, if `p` contains the files `a` and
`b` and `GetModule(p, d)` returns success, then afterwards `d` contains files
`a` and `b` with the contents the originals had.  (Success already implies
that `p` is a local path and passed the existence check.) -/
theorem GetModule_success_copies_files {C : Type} (env : Env FS MI FI E Ω)
    (files : FS → String → String → Option C) (hcopy : CopiesTree env files)
    (o : Ω) (p d : String) (fs : FS) (a b : String) (ca cb : C)
    (ha : files fs p a = some ca) (hb : files fs p b = some cb)
    (hok : (LocalSourceReader.GetModule env o p d fs).val = none) :
    files (LocalSourceReader.GetModule env o p d fs).fs d a = some ca
      ∧ files (LocalSourceReader.GetModule env o p d fs).fs d b = some cb := by
  cases hl : env.IsLocalPath p with
  | false => simp [LocalSourceReader.GetModule, hl] at hok
  | true =>
    cases hn : os.IsNotExist env (env.Stat p fs).2 with
    | true => simp [LocalSourceReader.GetModule, hl, os.Stat, hn] at hok
    | false =>
      have hrun : LocalSourceReader.GetModule env o p d fs
          = ⟨(env.copyFromPath o p d fs).1, (env.copyFromPath o p d fs).2,
              [Call.Stat p, Call.copyFromPath p d]⟩ := by
        simp [LocalSourceReader.GetModule, hl, os.Stat, hn, copyFromPath]
      rw [hrun] at hok ⊢
      exact ⟨hcopy o p d fs hok a ca ha, hcopy o p d fs hok b cb hb⟩

theorem GetModule_success_copies_files_witness :
    CopiesTree sampleEnv sampleFiles ∧
    sampleFiles sampleDisk "/mods/vpc" "main.tf" = some "resource vpc" ∧
    sampleFiles sampleDisk "/mods/vpc" "variables.tf" = some "variable name" ∧
    (LocalSourceReader.GetModule sampleEnv 0 "/mods/vpc" "/deploy" sampleDisk).val = none ∧
    (sampleFiles (LocalSourceReader.GetModule sampleEnv 0 "/mods/vpc" "/deploy" sampleDisk).fs
        "/deploy" "main.tf" = some "resource vpc"
      ∧ sampleFiles (LocalSourceReader.GetModule sampleEnv 0 "/mods/vpc" "/deploy" sampleDisk).fs
        "/deploy" "variables.tf" = some "variable name") :=
  ⟨sampleEnv_copiesTree, by decide, by decide, by decide,
    GetModule_success_copies_files sampleEnv sampleFiles sampleEnv_copiesTree 0
      "/mods/vpc" "/deploy" sampleDisk "main.tf" "variables.tf" "resource vpc" "variable name"
      (by decide) (by decide) (by decide)⟩

/-! ## The existence check belongs to `GetModule` only -/

/-- C7: when `IsLocalPath(modPath)` is true, `GetModuleInfo(modPath, kind)`
makes no existence check: it never calls `os.Stat`, its outcome is the same
whatever `os.Stat` would report, and what it returns is what
`Factory(kind).GetInfo(modPath)` returns; in particular every error it returns
is the one `GetInfo` returned, so the error `"Local module doesn't exist at
..."` that `GetModule` builds is never built here. -/
theorem GetModuleInfo_no_existence_check (env : Env FS MI FI E Ω) (modPath kind : String)
    (fs : FS) (hl : env.IsLocalPath modPath = true) :
    (∀ name : String, Call.Stat name ∉ (LocalSourceReader.GetModuleInfo env modPath kind fs).calls)
    ∧ (∀ stat : String → FS → FI × error E,
        LocalSourceReader.GetModuleInfo { env with Stat := stat } modPath kind fs
          = LocalSourceReader.GetModuleInfo env modPath kind fs)
    ∧ (LocalSourceReader.GetModuleInfo env modPath kind fs).val
        = ((env.Factory kind).GetInfo modPath fs).1
    ∧ (∀ e : GoError E, (LocalSourceReader.GetModuleInfo env modPath kind fs).val.2 = some e →
        ((env.Factory kind).GetInfo modPath fs).1.2 = some e) := by
  have hrun : LocalSourceReader.GetModuleInfo env modPath kind fs
      = ⟨((env.Factory kind).GetInfo modPath fs).1, ((env.Factory kind).GetInfo modPath fs).2,
          [Call.Factory kind, Call.GetInfo modPath]⟩ := by
    simp [LocalSourceReader.GetModuleInfo, hl, resreader.Factory, ModReader.call]
  refine ⟨?_, ?_, ?_, ?_⟩
  · intro name
    simp [hrun]
  · intro stat
    simp [LocalSourceReader.GetModuleInfo, hl, resreader.Factory, ModReader.call]
  · simp [hrun]
  · intro e he
    simpa [hrun] using he

theorem GetModuleInfo_no_existence_check_witness :
    sampleEnv.IsLocalPath "/tmp/nonexistent" = true ∧
    ((∀ name : String, Call.Stat name ∉
        (LocalSourceReader.GetModuleInfo sampleEnv "/tmp/nonexistent" "terraform" sampleDisk).calls)
    ∧ (∀ stat : String → SampleFS → Nat × error Errno,
        LocalSourceReader.GetModuleInfo { sampleEnv with Stat := stat }
            "/tmp/nonexistent" "terraform" sampleDisk
          = LocalSourceReader.GetModuleInfo sampleEnv "/tmp/nonexistent" "terraform" sampleDisk)
    ∧ (LocalSourceReader.GetModuleInfo sampleEnv "/tmp/nonexistent" "terraform" sampleDisk).val
        = ((sampleEnv.Factory "terraform").GetInfo "/tmp/nonexistent" sampleDisk).1
    ∧ (∀ e : GoError Errno,
        (LocalSourceReader.GetModuleInfo sampleEnv "/tmp/nonexistent" "terraform" sampleDisk).val.2
          = some e →
        ((sampleEnv.Factory "terraform").GetInfo "/tmp/nonexistent" sampleDisk).1.2 = some e)) :=
  ⟨by decide,
    GetModuleInfo_no_existence_check sampleEnv "/tmp/nonexistent" "terraform" sampleDisk
      (by decide)⟩

/-! ## Running `GetModule` twice -/

/-- C8: with a deterministic copy utility, two runs of `GetModule(p, d)` from
the same filesystem state (any state, one where `d` is empty or absent
included) have the same outcome: the same returned result, the same
filesystem afterwards, hence the same tree under `d`, and the same calls.  The
component changes nothing itself: the filesystem afterwards is the initial one
or the one `copyFromPath(p, d)` leaves, and its only calls are `os.Stat(p)` and
`copyFromPath(p, d)`. -/
theorem GetModule_idempotent (env : Env FS MI FI E Ω) (hdet : DeterministicCopy env)
    (o₁ o₂ : Ω) (p d : String) (fs : FS) :
    LocalSourceReader.GetModule env o₁ p d fs = LocalSourceReader.GetModule env o₂ p d fs
    ∧ ((LocalSourceReader.GetModule env o₁ p d fs).fs = fs
        ∨ (LocalSourceReader.GetModule env o₁ p d fs).fs = (env.copyFromPath o₁ p d fs).2)
    ∧ (∀ c ∈ (LocalSourceReader.GetModule env o₁ p d fs).calls,
        c = Call.Stat p ∨ c = Call.copyFromPath p d) := by
  refine ⟨?_, ?_, ?_⟩
  · simp only [LocalSourceReader.GetModule, copyFromPath, hdet o₁ o₂ p d]
  · cases hl : env.IsLocalPath p with
    | false => simp [LocalSourceReader.GetModule, hl]
    | true =>
      cases hn : os.IsNotExist env (env.Stat p fs).2 with
      | true => simp [LocalSourceReader.GetModule, hl, os.Stat, hn]
      | false => simp [LocalSourceReader.GetModule, hl, os.Stat, hn, copyFromPath]
  · cases hl : env.IsLocalPath p with
    | false => simp [LocalSourceReader.GetModule, hl]
    | true =>
      cases hn : os.IsNotExist env (env.Stat p fs).2 with
      | true => simp [LocalSourceReader.GetModule, hl, os.Stat, hn]
      | false => simp [LocalSourceReader.GetModule, hl, os.Stat, hn, copyFromPath]

theorem GetModule_idempotent_witness :
    DeterministicCopy sampleEnv ∧
    (LocalSourceReader.GetModule sampleEnv 1 "/mods/vpc" "/deploy" sampleDisk
        = LocalSourceReader.GetModule sampleEnv 2 "/mods/vpc" "/deploy" sampleDisk
    ∧ ((LocalSourceReader.GetModule sampleEnv 1 "/mods/vpc" "/deploy" sampleDisk).fs = sampleDisk
        ∨ (LocalSourceReader.GetModule sampleEnv 1 "/mods/vpc" "/deploy" sampleDisk).fs
            = (sampleEnv.copyFromPath 1 "/mods/vpc" "/deploy" sampleDisk).2)
    ∧ (∀ c ∈ (LocalSourceReader.GetModule sampleEnv 1 "/mods/vpc" "/deploy" sampleDisk).calls,
        c = Call.Stat "/mods/vpc" ∨ c = Call.copyFromPath "/mods/vpc" "/deploy")) :=
  ⟨sampleEnv_deterministicCopy,
    GetModule_idempotent sampleEnv sampleEnv_deterministicCopy 1 2 "/mods/vpc" "/deploy"
      sampleDisk⟩

/-- The proviso of C8 is needed: with the stamping copy utility two runs from
the same state leave different trees under the destination. -/
theorem GetModule_stamp_differs :
    sampleFiles (LocalSourceReader.GetModule stampEnv 0 "/mods/vpc" "/deploy" sampleDisk).fs
        "/deploy" ".stamp"
      ≠ sampleFiles (LocalSourceReader.GetModule stampEnv 1 "/mods/vpc" "/deploy" sampleDisk).fs
        "/deploy" ".stamp" := by
  decide

/-! ## When the copy is attempted -/

/-- C9: `GetModule(modPath, copyPath)` calls `copyFromPath` if and only if
`IsLocalPath(modPath)` is true and `os.IsNotExist` does not hold of the error
of `os.Stat(modPath)`.  In particular, when the path is local and `os.Stat`
fails with an error that is not a not-exist error, the error of `os.Stat` is
dropped, the copy is attempted and the result of `GetModule` is the result of
the copy. -/
theorem GetModule_copy_iff (env : Env FS MI FI E Ω) (o : Ω) (modPath copyPath : String)
    (fs : FS) :
    ((∃ src dst : String,
        Call.copyFromPath src dst ∈ (LocalSourceReader.GetModule env o modPath copyPath fs).calls)
      ↔ (env.IsLocalPath modPath = true ∧ os.IsNotExist env (env.Stat modPath fs).2 = false))
    ∧ (∀ e : GoError E, env.IsLocalPath modPath = true → (env.Stat modPath fs).2 = some e →
        os.IsNotExist env (some e) = false →
        LocalSourceReader.GetModule env o modPath copyPath fs
          = ⟨(env.copyFromPath o modPath copyPath fs).1,
              (env.copyFromPath o modPath copyPath fs).2,
              [Call.Stat modPath, Call.copyFromPath modPath copyPath]⟩) := by
  constructor
  · cases hl : env.IsLocalPath modPath with
    | false => simp [LocalSourceReader.GetModule, hl]
    | true =>
      cases hn : os.IsNotExist env (env.Stat modPath fs).2 with
      | true => simp [LocalSourceReader.GetModule, hl, os.Stat, hn]
      | false => simp [LocalSourceReader.GetModule, hl, os.Stat, hn, copyFromPath]
  · intro e hl hs hn
    rw [← hs] at hn
    simp [LocalSourceReader.GetModule, hl, os.Stat, hn, copyFromPath]

theorem GetModule_copy_iff_witness :
    sampleEnv.IsLocalPath "/locked" = true ∧
    (sampleEnv.Stat "/locked" sampleDisk).2 = some (.foreign Errno.EACCES) ∧
    os.IsNotExist sampleEnv (some (.foreign Errno.EACCES)) = false ∧
    LocalSourceReader.GetModule sampleEnv 0 "/locked" "/deploy" sampleDisk
      = ⟨(sampleEnv.copyFromPath 0 "/locked" "/deploy" sampleDisk).1,
          (sampleEnv.copyFromPath 0 "/locked" "/deploy" sampleDisk).2,
          [Call.Stat "/locked", Call.copyFromPath "/locked" "/deploy"]⟩ :=
  ⟨by decide, by decide, by decide,
    (GetModule_copy_iff sampleEnv 0 "/locked" "/deploy" sampleDisk).2
      (.foreign Errno.EACCES) (by decide) (by decide) (by decide)⟩

end sourcereader
